import Mathlib

/-
Shallow embedding of `src/daq2lh5/llama/llama_streamer.py` (class
`LLAMAStreamer`): a streaming demultiplexer for llamaDAQ / SIS3316 binary
data.  The byte stream is modelled as a list of byte values together with a
position; python file operations `tell`, `seek`, `read` become pure
functions.  Exceptions become an explicit error type.  The two collaborator
modules `llama_header_decoder` and `llama_event_decoder` are not part of the
source tree; the pieces of them that `llama_streamer.py` calls are modelled
from the spec and marked as such.
-/

namespace Llama

/-- A readable, seekable byte stream: the file contents together with the
current read position.  Mirrors the python binary-file object used by
`LLAMAStreamer`. -/
structure ByteStream where
  data : List Nat
  pos : Nat
deriving Repr, DecidableEq

/-- Python `file.tell()`. -/
def ByteStream.tell (s : ByteStream) : Nat := s.pos

/-- Python `file.seek(p)`. -/
def ByteStream.seek (s : ByteStream) (p : Nat) : ByteStream := { s with pos := p }

/-- Python `file.read(n)`: returns up to `n` bytes from the current position
and advances the position by the number of bytes actually returned (fewer
than `n` at end of stream). -/
def ByteStream.read (s : ByteStream) (n : Nat) : List Nat × ByteStream :=
  let bytes := (s.data.drop s.pos).take n
  (bytes, { s with pos := s.pos + bytes.length })

/-- The bytes from the current position to the end of the stream. -/
def ByteStream.remaining (s : ByteStream) : List Nat :=
  s.data.drop s.pos

/-- Assemble a 32-bit word from the first four bytes of a list,
little-endian, as `np.fromstring(data1, dtype=np.uint32)` does on the
host platform (line 144 of the source). -/
def word32OfBytes : List Nat → Nat
  | b0 :: b1 :: b2 :: b3 :: _ => b0 + 256 * b1 + 65536 * b2 + 16777216 * b3
  | _ => 0

/-- Errors raised by the streamer.  The python source raises `RuntimeError`
(and a `KeyError` escapes the dict lookup on line 147); the constructors
follow the spec's error taxonomy names. -/
inductive StreamerError where
  | OpenWhileOpen
  | CloseUnopened
  | NoStreamOpen
  | UnknownChannel (fch_id : Nat)
  | TruncatedPacket (expected : Nat) (got : Nat)
deriving Repr, DecidableEq

/-- The mutable state of a `LLAMAStreamer` instance: the open stream (or
`none`), the diagnostic counters `n_bytes_read` and `packet_id`, the
`any_full` flag inherited from `DataStreamer`, the channel-configuration
table (channel id to `event_length` in 32-bit words) obtained from the
header decoder, and the list of deposited event records (`event_rbkd`
contents), each record being `(packet_id, fch_id, packet bytes)`. -/
structure LLAMAStreamer where
  in_stream : Option ByteStream
  n_bytes_read : Nat
  packet_id : Nat
  any_full : Bool
  channel_configs : List (Nat × Nat)
  event_rbkd : List (Nat × Nat × List Nat)
deriving Repr, DecidableEq

/-- The channel id extracted from the four bytes at the stream's current
position: `(word >>> 4) &&& 0xfff` of the little-endian 32-bit word
(lines 144 to 145 of the source). -/
def chanOf (s : ByteStream) : Nat :=
  (word32OfBytes (s.remaining.take 4) >>> 4) &&& 0x00000fff

/-- Translation of `LLAMAStreamer.__read_bytes` (lines 130 to 154), given the
channel-configuration table and the open stream.  Returns `ok none` at clean
end of stream (fewer than 4 bytes available), `ok (some (packet, fch_id))`
on success, and an error for an unknown channel or a short packet read; in
every case it also returns the stream as the python file object is left. -/
def read_bytes (cfg : List (Nat × Nat)) (s : ByteStream) :
    Except StreamerError (Option (List Nat × Nat)) × ByteStream :=
  let position := s.tell
  let r1 := s.read 4
  let data1 := r1.1
  let s1 := r1.2
  if data1.length < 4 then
    (.ok none, s1)
  else
    let s2 := s1.seek position
    let header_word := word32OfBytes data1
    let fch_id := (header_word >>> 4) &&& 0x00000fff
    match cfg.lookup fch_id with
    | none => (.error (.UnknownChannel fch_id), s2)
    | some event_length_32 =>
      let event_length_8 := event_length_32 * 4
      let r2 := s2.read event_length_8
      let packet := r2.1
      let s3 := r2.2
      if packet.length < event_length_8 then
        (.error (.TruncatedPacket event_length_8 packet.length), s3)
      else
        (.ok (some (packet, fch_id)), s3)

/-- Translation of `LLAMAStreamer.read_packet` (lines 108 to 128).  The
event decoder (`llama_event_decoder.py`, not in the source tree) is
modelled from the spec as a parameter `decode` taking the raw packet, the
packet id and the channel id and returning the buffer-full flag; per the
spec it also deposits one event record into the output buffer pool, which
the embedding records by appending `(packet_id, fch_id, packet)` to
`event_rbkd`.  Returns the python return value (`true` while there is data)
or an error, together with the updated streamer state. -/
def read_packet (decode : List Nat → Nat → Nat → Bool) (st : LLAMAStreamer) :
    Except StreamerError Bool × LLAMAStreamer :=
  match st.in_stream with
  | none => (.error .NoStreamOpen, st)
  | some s =>
    match read_bytes st.channel_configs s with
    | (.error e, s') => (.error e, { st with in_stream := some s' })
    | (.ok none, s') => (.ok false, { st with in_stream := some s' })
    | (.ok (some (packet, fch_id)), s') =>
      let new_packet_id := st.packet_id + 1
      let new_n_bytes := st.n_bytes_read + packet.length
      let full := decode packet new_packet_id fch_id
      (.ok true,
       { st with
         in_stream := some s'
         packet_id := new_packet_id
         n_bytes_read := new_n_bytes
         any_full := st.any_full || full
         event_rbkd := st.event_rbkd ++ [(new_packet_id, fch_id, packet)] })

/-- Modelled from the spec: the result of `LLAMAHeaderDecoder.decode_header`
(`llama_header_decoder.py` is not in the source tree).  Per the spec the
header parser consumes exactly `n_bytes_hdr` leading bytes, leaves the
stream positioned at the first event packet, and yields the
channel-configuration table. -/
structure HeaderResult where
  n_bytes_hdr : Nat
  configs : List (Nat × Nat)
deriving Repr, DecidableEq

/-- Translation of `LLAMAStreamer.open_stream` (lines 34 to 96), restricted
to the stream-state bookkeeping the claims concern: the open-while-open
check (lines 49 to 50), opening the file, resetting the counters (lines 52
to 53), and header decoding (lines 56 to 57) modelled via `HeaderResult`. -/
def open_stream (hdr : HeaderResult) (fileData : List Nat) (st : LLAMAStreamer) :
    Except StreamerError Unit × LLAMAStreamer :=
  if st.in_stream.isSome then
    (.error .OpenWhileOpen, st)
  else
    let s0 : ByteStream := { data := fileData, pos := 0 }
    let s1 := s0.seek (s0.pos + hdr.n_bytes_hdr)
    (.ok (),
     { st with
       in_stream := some s1
       n_bytes_read := 0 + hdr.n_bytes_hdr
       packet_id := 0
       channel_configs := hdr.configs })

/-- Translation of `LLAMAStreamer.close_stream` (lines 102 to 106). -/
def close_stream (st : LLAMAStreamer) : Except StreamerError Unit × LLAMAStreamer :=
  match st.in_stream with
  | none => (.error .CloseUnopened, st)
  | some _ => (.ok (), { st with in_stream := none })

/-- The external driver loop from the spec: call `read_packet` until it
returns `false` (clean end of stream, second component `true`), an error
occurs, or the fuel runs out (second component `false` in those cases). -/
def runStream (decode : List Nat → Nat → Nat → Bool) :
    Nat → LLAMAStreamer → LLAMAStreamer × Bool
  | 0, st => (st, false)
  | Nat.succ n, st =>
    match read_packet decode st with
    | (.ok true, st') => runStream decode n st'
    | (.ok false, st') => (st', true)
    | (.error _, st') => (st', false)

/-- A fresh streamer as built by `LLAMAStreamer.__init__`. -/
def initSt : LLAMAStreamer :=
  { in_stream := none
    n_bytes_read := 0
    packet_id := 0
    any_full := false
    channel_configs := []
    event_rbkd := [] }

end Llama

namespace Llama

/-- Evaluation of `read_bytes` when fewer than 4 bytes remain: clean end of
stream (lines 140 to 141 of the source). -/
theorem read_bytes_eof (cfg : List (Nat × Nat)) (s : ByteStream)
    (h : s.remaining.length < 4) :
    read_bytes cfg s = (.ok none, { s with pos := s.pos + s.remaining.length }) := by
  have hlen : ((s.data.drop s.pos).take 4).length = s.remaining.length := by
    simp only [ByteStream.remaining, List.length_take, List.length_drop] at h ⊢
    omega
  simp only [read_bytes, ByteStream.read, ByteStream.remaining] at *
  rw [hlen, if_pos h]

/-- Evaluation of `read_bytes` when the peeked channel id has no entry in
the configuration table (the dict lookup on line 147 fails). -/
theorem read_bytes_unknown (cfg : List (Nat × Nat)) (s : ByteStream)
    (h4 : 4 ≤ s.remaining.length)
    (hlk : cfg.lookup (chanOf s) = none) :
    read_bytes cfg s = (.error (.UnknownChannel (chanOf s)), s) := by
  have hlen : ((s.data.drop s.pos).take 4).length = 4 := by
    simp only [ByteStream.remaining, List.length_take, List.length_drop] at h4 ⊢
    omega
  simp only [chanOf, ByteStream.remaining] at hlk
  simp only [read_bytes, ByteStream.read, ByteStream.tell, ByteStream.seek, chanOf,
    ByteStream.remaining]
  rw [hlen, if_neg (by omega), hlk]

/-- Evaluation of `read_bytes` on a fully available packet. -/
theorem read_bytes_ok_some (cfg : List (Nat × Nat)) (s : ByteStream) (len : Nat)
    (h4 : 4 ≤ s.remaining.length)
    (hlk : cfg.lookup (chanOf s) = some len)
    (hle : len * 4 ≤ s.remaining.length) :
    read_bytes cfg s =
      (.ok (some (s.remaining.take (len * 4), chanOf s)), { s with pos := s.pos + len * 4 }) := by
  have hlen : ((s.data.drop s.pos).take 4).length = 4 := by
    simp only [ByteStream.remaining, List.length_take, List.length_drop] at h4 ⊢
    omega
  have hplen : ((s.data.drop s.pos).take (len * 4)).length = len * 4 := by
    simp only [ByteStream.remaining, List.length_take, List.length_drop] at hle ⊢
    omega
  simp only [chanOf, ByteStream.remaining] at hlk
  simp only [read_bytes, ByteStream.read, ByteStream.tell, ByteStream.seek, chanOf,
    ByteStream.remaining]
  rw [hlen, if_neg (by omega), hlk]
  simp only [hplen]
  rw [if_neg (by omega)]

/-- Evaluation of `read_bytes` when the declared packet length exceeds the
remaining bytes (lines 151 to 152 of the source). -/
theorem read_bytes_trunc (cfg : List (Nat × Nat)) (s : ByteStream) (len : Nat)
    (h4 : 4 ≤ s.remaining.length)
    (hlk : cfg.lookup (chanOf s) = some len)
    (hgt : s.remaining.length < len * 4) :
    read_bytes cfg s =
      (.error (.TruncatedPacket (len * 4) s.remaining.length),
        { s with pos := s.pos + s.remaining.length }) := by
  have hlen : ((s.data.drop s.pos).take 4).length = 4 := by
    simp only [ByteStream.remaining, List.length_take, List.length_drop] at h4 ⊢
    omega
  have hplen : ((s.data.drop s.pos).take (len * 4)).length = s.remaining.length := by
    simp only [ByteStream.remaining, List.length_take, List.length_drop] at hgt ⊢
    omega
  simp only [chanOf, ByteStream.remaining] at hlk
  simp only [read_bytes, ByteStream.read, ByteStream.tell, ByteStream.seek, chanOf,
    ByteStream.remaining]
  rw [hlen, if_neg (by omega), hlk]
  simp only [hplen]
  rw [if_pos hgt]
  simp [ByteStream.remaining]

end Llama

namespace Llama

/-- Inversion: a successful `read_bytes` determines the channel id, the
packet bytes and the final stream position. -/
theorem read_bytes_ok_some_inv (cfg : List (Nat × Nat)) (s s' : ByteStream)
    (packet : List Nat) (fch : Nat)
    (h : read_bytes cfg s = (.ok (some (packet, fch)), s')) :
    4 ≤ s.remaining.length ∧ fch = chanOf s ∧
      ∃ len, cfg.lookup (chanOf s) = some len ∧
        packet = s.remaining.take (len * 4) ∧ packet.length = len * 4 ∧
        len * 4 ≤ s.remaining.length ∧ s' = { s with pos := s.pos + len * 4 } := by
  rcases Nat.lt_or_ge s.remaining.length 4 with h4 | h4
  · rw [read_bytes_eof cfg s h4] at h
    exact absurd (congrArg Prod.fst h) (by simp)
  · cases hlk : cfg.lookup (chanOf s) with
    | none =>
      rw [read_bytes_unknown cfg s h4 hlk] at h
      exact absurd (congrArg Prod.fst h) (by simp)
    | some len =>
      rcases Nat.lt_or_ge s.remaining.length (len * 4) with hgt | hle
      · rw [read_bytes_trunc cfg s len h4 hlk hgt] at h
        exact absurd (congrArg Prod.fst h) (by simp)
      · rw [read_bytes_ok_some cfg s len h4 hlk hle] at h
        have h1 := congrArg Prod.fst h
        have h2 := congrArg Prod.snd h
        simp only at h1 h2
        cases h1
        refine ⟨h4, rfl, len, rfl, rfl, ?_, hle, h2.symm⟩
        simp only [ByteStream.remaining, List.length_take, List.length_drop] at hle ⊢
        omega

end Llama

namespace Llama

/-- Evaluation of `read_packet` with no open stream (line 136). -/
theorem read_packet_no_stream (d : List Nat → Nat → Nat → Bool) (st : LLAMAStreamer)
    (hst : st.in_stream = none) :
    read_packet d st = (.error .NoStreamOpen, st) := by
  simp only [read_packet, hst]

/-- Evaluation of `read_packet` when `read_bytes` fails: the error
propagates and only the stream object changes. -/
theorem read_packet_of_error (d : List Nat → Nat → Nat → Bool) (st : LLAMAStreamer)
    (s s2 : ByteStream) (e : StreamerError)
    (hst : st.in_stream = some s)
    (hrb : read_bytes st.channel_configs s = (.error e, s2)) :
    read_packet d st = (.error e, { st with in_stream := some s2 }) := by
  simp only [read_packet, hst, hrb]

/-- Evaluation of `read_packet` at clean end of stream (lines 118 to 119). -/
theorem read_packet_of_eof (d : List Nat → Nat → Nat → Bool) (st : LLAMAStreamer)
    (s s2 : ByteStream)
    (hst : st.in_stream = some s)
    (hrb : read_bytes st.channel_configs s = (.ok none, s2)) :
    read_packet d st = (.ok false, { st with in_stream := some s2 }) := by
  simp only [read_packet, hst, hrb]

/-- Evaluation of `read_packet` on a successful packet read (lines 120 to
128): counters advance, the record is deposited, `any_full` accumulates. -/
theorem read_packet_of_ok (d : List Nat → Nat → Nat → Bool) (st : LLAMAStreamer)
    (s s2 : ByteStream) (packet : List Nat) (fch : Nat)
    (hst : st.in_stream = some s)
    (hrb : read_bytes st.channel_configs s = (.ok (some (packet, fch)), s2)) :
    read_packet d st =
      (.ok true,
       { st with
         in_stream := some s2
         packet_id := st.packet_id + 1
         n_bytes_read := st.n_bytes_read + packet.length
         any_full := st.any_full || d packet (st.packet_id + 1) fch
         event_rbkd := st.event_rbkd ++ [(st.packet_id + 1, fch, packet)] }) := by
  simp only [read_packet, hst, hrb]

/-- Inversion: a `read_packet` call that returns `true` determines the
packet, its channel's configured length and the whole state update. -/
theorem read_packet_ok_true_inv (d : List Nat → Nat → Nat → Bool) (st st' : LLAMAStreamer)
    (h : read_packet d st = (.ok true, st')) :
    ∃ s len packet, st.in_stream = some s ∧
      st.channel_configs.lookup (chanOf s) = some len ∧
      4 ≤ s.remaining.length ∧ len * 4 ≤ s.remaining.length ∧
      packet = s.remaining.take (len * 4) ∧ packet.length = len * 4 ∧
      st' = { st with
        in_stream := some { s with pos := s.pos + len * 4 }
        packet_id := st.packet_id + 1
        n_bytes_read := st.n_bytes_read + len * 4
        any_full := st.any_full || d packet (st.packet_id + 1) (chanOf s)
        event_rbkd := st.event_rbkd ++ [(st.packet_id + 1, chanOf s, packet)] } := by
  cases hst : st.in_stream with
  | none =>
    rw [read_packet_no_stream d st hst] at h
    exact absurd (congrArg Prod.fst h) (by simp)
  | some s =>
    rcases hq : read_bytes st.channel_configs s with ⟨res, s2⟩
    cases res with
    | error e =>
      rw [read_packet_of_error d st s s2 e hst hq] at h
      exact absurd (congrArg Prod.fst h) (by simp)
    | ok o =>
      cases o with
      | none =>
        rw [read_packet_of_eof d st s s2 hst hq] at h
        have hfst := congrArg Prod.fst h
        simp at hfst
      | some pf =>
        obtain ⟨packet, fch⟩ := pf
        rw [read_packet_of_ok d st s s2 packet fch hst hq] at h
        obtain ⟨h4, hfch, len, hlk, hpk, hplen, hle, hs2⟩ :=
          read_bytes_ok_some_inv st.channel_configs s s2 packet fch hq
        subst hfch
        subst hs2
        refine ⟨s, len, packet, rfl, hlk, h4, hle, hpk, hplen, ?_⟩
        have h2 := congrArg Prod.snd h
        simp only at h2
        rw [hplen] at h2
        exact h2.symm

end Llama

namespace Llama

/-- Inversion: `read_packet` returns `false` only when fewer than 4 bytes
were available at the packet boundary, and then `n_bytes_read` is
unchanged. -/
theorem read_packet_ok_false_inv (d : List Nat → Nat → Nat → Bool)
    (st st1 : LLAMAStreamer) (s : ByteStream)
    (hst : st.in_stream = some s)
    (h : read_packet d st = (.ok false, st1)) :
    s.remaining.length < 4 ∧ st1.n_bytes_read = st.n_bytes_read := by
  rcases Nat.lt_or_ge s.remaining.length 4 with h4 | h4
  · refine ⟨h4, ?_⟩
    rw [read_packet_of_eof d st s _ hst (read_bytes_eof _ s h4)] at h
    have h2 := congrArg Prod.snd h
    simp only at h2
    rw [← h2]
  · exfalso
    cases hlk : st.channel_configs.lookup (chanOf s) with
    | none =>
      rw [read_packet_of_error d st s _ _ hst (read_bytes_unknown _ s h4 hlk)] at h
      simp at h
    | some len =>
      rcases Nat.lt_or_ge s.remaining.length (len * 4) with hgt | hle
      · rw [read_packet_of_error d st s _ _ hst (read_bytes_trunc _ s len h4 hlk hgt)] at h
        simp at h
      · rw [read_packet_of_ok d st s _ _ _ hst (read_bytes_ok_some _ s len h4 hlk hle)] at h
        simp at h

/-- Driving `read_packet` to clean termination consumes the stream down to
its last byte, provided the stream position is in sync with `n_bytes_read`
and a whole number of 32-bit words follows (every packet is a whole number
of words, so a stream with no trailing garbage satisfies this). -/
theorem runStream_consumes_all (d : List Nat → Nat → Nat → Bool) :
    ∀ (n : Nat) (st st' : LLAMAStreamer) (s : ByteStream),
      st.in_stream = some s →
      s.pos = st.n_bytes_read →
      st.n_bytes_read ≤ s.data.length →
      4 ∣ (s.data.length - st.n_bytes_read) →
      runStream d n st = (st', true) →
      st'.n_bytes_read = s.data.length := by
  intro n
  induction n with
  | zero =>
    intro st st' s _ _ _ _ hrun
    simp [runStream] at hrun
  | succ n ih =>
    intro st st' s hst hpos hle hdiv hrun
    rcases hq : read_packet d st with ⟨res, st1⟩
    rw [runStream, hq] at hrun
    cases res with
    | error e => simp at hrun
    | ok b =>
      cases b with
      | false =>
        simp only at hrun
        have hst1 : st1 = st' := congrArg Prod.fst hrun
        obtain ⟨hlt, hnb⟩ := read_packet_ok_false_inv d st st1 s hst hq
        have hrem : s.remaining.length = s.data.length - s.pos := by
          simp [ByteStream.remaining, List.length_drop]
        rw [← hst1, hnb]
        omega
      | true =>
        simp only at hrun
        obtain ⟨s0, len, packet, hst0, hlk, h4, hle4, hpk, hplen, hrec⟩ :=
          read_packet_ok_true_inv d st st1 hq
        rw [hst] at hst0
        injection hst0 with hss
        subst hss
        have hrem : s.remaining.length = s.data.length - s.pos := by
          simp [ByteStream.remaining, List.length_drop]
        subst hrec
        exact ih _ st' { s with pos := s.pos + len * 4 } rfl (by simp; omega)
          (by simp; omega) (by simp; omega) hrun

end Llama

namespace Llama

/-- Example configuration: channel 5 has `event_length` 3 words. -/
def exCfg : List (Nat × Nat) := [(5, 3)]
/-- Example 12-byte packet for channel 5 (leading word `0x50`). -/
def exPacket1 : List Nat := [80, 0, 0, 0, 1, 2, 3, 4, 5, 6, 7, 8]
/-- A second example packet for channel 5. -/
def exPacket2 : List Nat := [80, 0, 0, 0, 9, 10, 11, 12, 13, 14, 15, 16]
/-- Example file: a 4-byte header followed by two channel-5 packets. -/
def exData : List Nat := [0, 0, 0, 0] ++ exPacket1 ++ exPacket2
/-- Example header-decoder result for `exData`. -/
def exHdr : HeaderResult := { n_bytes_hdr := 4, configs := exCfg }
/-- The streamer right after opening `exData`. -/
def openedSt : LLAMAStreamer := (open_stream exHdr exData initSt).2
/-- An event decoder whose buffers never fill. -/
def dFalse : List Nat → Nat → Nat → Bool := fun _ _ _ => false
/-- A streamer whose stream has only 2 bytes left at a packet boundary. -/
def shortSt : LLAMAStreamer :=
  { initSt with
    in_stream := some ⟨[0, 0, 0, 0, 80, 0], 4⟩
    n_bytes_read := 4
    channel_configs := exCfg }
/-- A streamer whose stream is exhausted at a packet boundary. -/
def endSt : LLAMAStreamer :=
  { initSt with
    in_stream := some ⟨exData, 28⟩
    n_bytes_read := 28
    channel_configs := exCfg }
/-- A streamer about to read a packet for unconfigured channel 7. -/
def unkSt : LLAMAStreamer :=
  { initSt with
    in_stream := some ⟨[0, 0, 0, 0, 112, 0, 0, 0, 1, 2, 3, 4], 4⟩
    n_bytes_read := 4
    channel_configs := exCfg }
/-- A streamer about to read a channel-5 packet with only 8 of 12 bytes
available. -/
def truncSt : LLAMAStreamer :=
  { initSt with
    in_stream := some ⟨[0, 0, 0, 0, 80, 0, 0, 0, 1, 2, 3, 4], 4⟩
    n_bytes_read := 4
    channel_configs := exCfg }

/-- C1 (counterexample): with a decoder that reports the buffer as not full
and `any_full` initially `false`, the accumulated buffer-fullness flag after
the call is `false`, yet `read_packet` returns `true`.  The return value is
therefore not the accumulated buffer-fullness flag, refuting the claim as
stated. -/
theorem C1_counterexample :
    dFalse exPacket1 1 5 = false ∧
    (read_packet dFalse openedSt).1 = Except.ok true ∧
    ((read_packet dFalse openedSt).2).any_full = false :=
  ⟨rfl, rfl, rfl⟩

/-- C1 (amended): for every successfully processed packet, `read_packet`
returns `true` (a data-availability flag) and accumulates the decoder's
buffer-full report into the streamer's `any_full` attribute via
`any_full := any_full || full`; the aggregated fullness lives in `any_full`,
not in the return value. -/
theorem read_packet_returns_availability_and_accumulates_any_full
    (d : List Nat → Nat → Nat → Bool) (st : LLAMAStreamer) (s s2 : ByteStream)
    (packet : List Nat) (fch : Nat)
    (hst : st.in_stream = some s)
    (hrb : read_bytes st.channel_configs s = (.ok (some (packet, fch)), s2)) :
    (read_packet d st).1 = .ok true ∧
    ((read_packet d st).2).any_full = (st.any_full || d packet (st.packet_id + 1) fch) := by
  rw [read_packet_of_ok d st s s2 packet fch hst hrb]
  exact ⟨rfl, rfl⟩

/-- Witness for C1 on a concrete opened stream. -/
theorem C1_witness :
    (read_packet dFalse openedSt).1 = .ok true ∧
    ((read_packet dFalse openedSt).2).any_full =
      (openedSt.any_full || dFalse exPacket1 (openedSt.packet_id + 1) 5) :=
  read_packet_returns_availability_and_accumulates_any_full dFalse openedSt
    ⟨exData, 4⟩ ⟨exData, 16⟩ exPacket1 5 rfl rfl

/-- C2 (counterexample): on a stream with exactly 2 bytes available at the
packet boundary, `read_packet` returns `ok false` (the clean end-of-stream
signal) and raises no error, refuting the claim that it fails with
`TruncatedPacket`. -/
theorem C2_counterexample :
    shortSt.in_stream = some ⟨[0, 0, 0, 0, 80, 0], 4⟩ ∧
    (⟨[0, 0, 0, 0, 80, 0], 4⟩ : ByteStream).remaining.length = 2 ∧
    (read_packet dFalse shortSt).1 = Except.ok false :=
  ⟨rfl, rfl, rfl⟩

/-- C2 (amended): if the stream ends mid-way through the 4-byte peek (1 to 3
bytes available at a packet boundary, and likewise 0), `read_packet`
signals clean end of stream: it returns `false` and leaves the counters and
the deposited records unchanged; it does not raise `TruncatedPacket`. -/
theorem short_peek_is_clean_eof (d : List Nat → Nat → Nat → Bool)
    (st : LLAMAStreamer) (s : ByteStream)
    (hst : st.in_stream = some s)
    (hlt : s.remaining.length < 4) :
    (read_packet d st).1 = .ok false ∧
    ((read_packet d st).2).n_bytes_read = st.n_bytes_read ∧
    ((read_packet d st).2).packet_id = st.packet_id ∧
    ((read_packet d st).2).event_rbkd = st.event_rbkd := by
  rw [read_packet_of_eof d st s _ hst (read_bytes_eof _ s hlt)]
  exact ⟨rfl, rfl, rfl, rfl⟩

/-- Witness for C2 on a stream with 2 bytes left at the boundary. -/
theorem C2_witness :
    (read_packet dFalse shortSt).1 = .ok false ∧
    ((read_packet dFalse shortSt).2).n_bytes_read = shortSt.n_bytes_read ∧
    ((read_packet dFalse shortSt).2).packet_id = shortSt.packet_id ∧
    ((read_packet dFalse shortSt).2).event_rbkd = shortSt.event_rbkd :=
  short_peek_is_clean_eof dFalse shortSt ⟨[0, 0, 0, 0, 80, 0], 4⟩ rfl (by decide)

/-- C3: at a packet boundary with zero further bytes available, `read_packet`
raises no error, deposits no record, leaves `packet_id` and `n_bytes_read`
unchanged, and returns `false`; conversely, `false` is returned only at
clean end of stream (fewer than 4 bytes left before the peek), so it is the
sole normal termination signal. -/
theorem clean_eof_returns_false_and_changes_nothing
    (d d4 : List Nat → Nat → Nat → Bool)
    (st st4 st5 : LLAMAStreamer) (s s4 : ByteStream)
    (hst : st.in_stream = some s)
    (hend : s.data.length ≤ s.pos)
    (hst4 : st4.in_stream = some s4)
    (hconv : read_packet d4 st4 = (.ok false, st5)) :
    read_packet d st = (.ok false, st) ∧ s4.remaining.length < 4 := by
  refine ⟨?_, (read_packet_ok_false_inv d4 st4 st5 s4 hst4 hconv).1⟩
  have h0 : s.remaining.length = 0 := by
    simp [ByteStream.remaining, List.length_drop]
    omega
  rw [read_packet_of_eof d st s _ hst (read_bytes_eof _ s (by omega))]
  rw [h0]
  have hs : ({ s with pos := s.pos + 0 } : ByteStream) = s := rfl
  rw [hs]
  obtain ⟨is, nb, pid, af, cc, rb⟩ := st
  simp only at hst
  rw [hst]

/-- Witness for C3 at an example stream read to its end. -/
theorem C3_witness :
    read_packet dFalse endSt = (.ok false, endSt) ∧
    (⟨exData, 28⟩ : ByteStream).remaining.length < 4 :=
  clean_eof_returns_false_and_changes_nothing dFalse dFalse endSt endSt endSt
    ⟨exData, 28⟩ ⟨exData, 28⟩ rfl (by decide) rfl rfl

end Llama

namespace Llama

/-- C4: for every packet, the channel id used for the configuration lookup
and for routing the deposited record equals bits 4 to 15 of the packet's
leading little-endian 32-bit word, `(word >>> 4) &&& 0xfff`. -/
theorem channel_id_is_bits_4_to_15 (d : List Nat → Nat → Nat → Bool)
    (st : LLAMAStreamer) (s s2 : ByteStream) (packet : List Nat) (fch : Nat)
    (hst : st.in_stream = some s)
    (hrb : read_bytes st.channel_configs s = (.ok (some (packet, fch)), s2)) :
    fch = (word32OfBytes (s.remaining.take 4) >>> 4) &&& 0x00000fff ∧
    (∃ len, st.channel_configs.lookup fch = some len) ∧
    ((read_packet d st).2).event_rbkd = st.event_rbkd ++ [(st.packet_id + 1, fch, packet)] := by
  obtain ⟨h4, hfch, len, hlk, _, _, _, _⟩ :=
    read_bytes_ok_some_inv st.channel_configs s s2 packet fch hrb
  refine ⟨hfch, ⟨len, ?_⟩, ?_⟩
  · rw [hfch]
    exact hlk
  · rw [read_packet_of_ok d st s s2 packet fch hst hrb]

/-- Witness for C4 on a concrete channel-5 packet. -/
theorem C4_witness :
    (5 : Nat) = (word32OfBytes ((⟨exData, 4⟩ : ByteStream).remaining.take 4) >>> 4) &&& 0x00000fff ∧
    (∃ len, openedSt.channel_configs.lookup 5 = some len) ∧
    ((read_packet dFalse openedSt).2).event_rbkd =
      openedSt.event_rbkd ++ [(openedSt.packet_id + 1, 5, exPacket1)] :=
  channel_id_is_bits_4_to_15 dFalse openedSt ⟨exData, 4⟩ ⟨exData, 16⟩ exPacket1 5 rfl rfl

/-- C5: when at least 4 bytes are available at the peek phase, the 4-byte
peek-then-rewind step restores the stream exactly to the recorded
packet-start position (no net advance), and the subsequent full-packet read
starts at that position, re-reading the 4 peeked bytes as the head of the
packet. -/
theorem peek_rewind_preserves_position (cfg : List (Nat × Nat)) (s : ByteStream)
    (h4 : 4 ≤ s.remaining.length) :
    ((s.read 4).2).seek s.tell = s ∧
    (∀ packet fch s', read_bytes cfg s = (.ok (some (packet, fch)), s') →
      ∃ len, cfg.lookup (chanOf s) = some len ∧
        packet = s.remaining.take (len * 4) ∧ s'.pos = s.pos + len * 4) := by
  refine ⟨rfl, ?_⟩
  intro packet fch s' h
  obtain ⟨_, _, len, hlk, hpk, _, _, hs'⟩ := read_bytes_ok_some_inv cfg s s' packet fch h
  exact ⟨len, hlk, hpk, by rw [hs']⟩

/-- Witness for C5 on a concrete stream position. -/
theorem C5_witness :
    (((⟨exData, 4⟩ : ByteStream).read 4).2).seek (⟨exData, 4⟩ : ByteStream).tell =
      (⟨exData, 4⟩ : ByteStream) :=
  (peek_rewind_preserves_position exCfg ⟨exData, 4⟩ (by decide)).1

/-- C6: a packet whose channel id is absent from the channel-configuration
table makes `read_packet` fail with the fatal `UnknownChannel` error, and
no record is deposited into the output buffer pool. -/
theorem unknown_channel_is_fatal (d : List Nat → Nat → Nat → Bool)
    (st : LLAMAStreamer) (s : ByteStream)
    (hst : st.in_stream = some s)
    (h4 : 4 ≤ s.remaining.length)
    (hlk : st.channel_configs.lookup (chanOf s) = none) :
    (read_packet d st).1 = .error (.UnknownChannel (chanOf s)) ∧
    ((read_packet d st).2).event_rbkd = st.event_rbkd := by
  rw [read_packet_of_error d st s s _ hst (read_bytes_unknown _ s h4 hlk)]
  exact ⟨rfl, rfl⟩

/-- Witness for C6 on a packet referencing unconfigured channel 7. -/
theorem C6_witness :
    (read_packet dFalse unkSt).1 =
      .error (.UnknownChannel (chanOf ⟨[0, 0, 0, 0, 112, 0, 0, 0, 1, 2, 3, 4], 4⟩)) ∧
    ((read_packet dFalse unkSt).2).event_rbkd = unkSt.event_rbkd :=
  unknown_channel_is_fatal dFalse unkSt ⟨[0, 0, 0, 0, 112, 0, 0, 0, 1, 2, 3, 4], 4⟩
    rfl (by decide) (by decide)

/-- C7: a packet whose declared length `event_length_words * 4` exceeds the
remaining stream bytes makes `read_packet` fail with the fatal
`TruncatedPacket` error, no record is deposited, and the failure happens
before any attempt to decode sub-fields: the outcome is the same for every
decoder `d`. -/
theorem truncated_packet_is_fatal (st : LLAMAStreamer) (s : ByteStream) (len : Nat)
    (hst : st.in_stream = some s)
    (h4 : 4 ≤ s.remaining.length)
    (hlk : st.channel_configs.lookup (chanOf s) = some len)
    (hshort : s.remaining.length < len * 4) :
    ∀ d, (read_packet d st).1 = .error (.TruncatedPacket (len * 4) s.remaining.length) ∧
      ((read_packet d st).2).event_rbkd = st.event_rbkd ∧
      ((read_packet d st).2).n_bytes_read = st.n_bytes_read := by
  intro d
  rw [read_packet_of_error d st s _ _ hst (read_bytes_trunc _ s len h4 hlk hshort)]
  exact ⟨rfl, rfl, rfl⟩

/-- Witness for C7 on a channel-5 packet cut off after 8 of 12 bytes. -/
theorem C7_witness :
    (read_packet dFalse truncSt).1 =
      .error (.TruncatedPacket (3 * 4) (⟨[0, 0, 0, 0, 80, 0, 0, 0, 1, 2, 3, 4], 4⟩ : ByteStream).remaining.length) ∧
    ((read_packet dFalse truncSt).2).event_rbkd = truncSt.event_rbkd ∧
    ((read_packet dFalse truncSt).2).n_bytes_read = truncSt.n_bytes_read :=
  truncated_packet_is_fatal truncSt ⟨[0, 0, 0, 0, 80, 0, 0, 0, 1, 2, 3, 4], 4⟩ 3
    rfl (by decide) (by decide) (by decide) dFalse

end Llama

namespace Llama

/-- C8: for a valid stream (position in sync with `n_bytes_read`, whole
number of 32-bit words after the header, hence no trailing garbage), the
header byte count plus the bytes consumed across all successful
`read_packet` calls equals the total stream length; and each successful
`read_packet` call increments `n_bytes_read` by exactly the packet's
declared length `event_length_words * 4` and `packet_id` by exactly 1. -/
theorem byte_accounting (d d2 : List Nat → Nat → Nat → Bool) (n : Nat)
    (st st' st2 st3 : LLAMAStreamer) (s s2 : ByteStream)
    (hst : st.in_stream = some s)
    (hpos : s.pos = st.n_bytes_read)
    (hle : st.n_bytes_read ≤ s.data.length)
    (hdiv : 4 ∣ (s.data.length - st.n_bytes_read))
    (hrun : runStream d n st = (st', true))
    (hst2 : st2.in_stream = some s2)
    (hstep : read_packet d2 st2 = (.ok true, st3)) :
    st'.n_bytes_read = s.data.length ∧
    st3.packet_id = st2.packet_id + 1 ∧
    st3.n_bytes_read =
      st2.n_bytes_read + ((st2.channel_configs.lookup (chanOf s2)).getD 0) * 4 := by
  refine ⟨runStream_consumes_all d n st st' s hst hpos hle hdiv hrun, ?_, ?_⟩
  all_goals {
    obtain ⟨s0, len, packet, hst0, hlk, _, _, _, _, hrec⟩ :=
      read_packet_ok_true_inv d2 st2 st3 hstep
    rw [hst2] at hst0
    injection hst0 with hss
    subst hss
    subst hrec
    simp [hlk]
  }

/-- Witness for C8 on a 28-byte stream: 4 header bytes plus two 12-byte
packets are fully consumed. -/
theorem C8_witness :
    ((runStream dFalse 5 openedSt).1).n_bytes_read = exData.length ∧
    ((read_packet dFalse openedSt).2).packet_id = openedSt.packet_id + 1 ∧
    ((read_packet dFalse openedSt).2).n_bytes_read =
      openedSt.n_bytes_read +
        ((openedSt.channel_configs.lookup (chanOf ⟨exData, 4⟩)).getD 0) * 4 :=
  byte_accounting dFalse dFalse 5 openedSt (runStream dFalse 5 openedSt).1
    openedSt (read_packet dFalse openedSt).2 ⟨exData, 4⟩ ⟨exData, 4⟩
    rfl rfl (by decide) (by decide) rfl rfl rfl

/-- C9: `open_stream` while a previous stream is still open fails with an
error and leaves the streamer state (open stream, counters, configuration)
unchanged; `close_stream` on an unopened streamer likewise fails with an
error and changes nothing. -/
theorem reopen_and_close_unopened_error (hdr : HeaderResult) (fileData : List Nat)
    (st1 st2 : LLAMAStreamer)
    (h1 : st1.in_stream.isSome = true)
    (h2 : st2.in_stream = none) :
    open_stream hdr fileData st1 = (.error .OpenWhileOpen, st1) ∧
    close_stream st2 = (.error .CloseUnopened, st2) := by
  constructor
  · simp only [open_stream, h1, if_true]
  · simp only [close_stream, h2]

/-- Witness for C9: reopening an opened streamer and closing a fresh one. -/
theorem C9_witness :
    open_stream exHdr exData openedSt = (.error .OpenWhileOpen, openedSt) ∧
    close_stream initSt = (.error .CloseUnopened, initSt) :=
  reopen_and_close_unopened_error exHdr exData openedSt initSt rfl rfl

/-- C10: if `read_packet` fails with an error, the diagnostic counters
`packet_id` and `n_bytes_read` (and the deposited records) retain exactly
their values from before the call, since every error is raised inside the
byte-reading step before either counter is incremented. -/
theorem counters_unchanged_on_error (d : List Nat → Nat → Nat → Bool)
    (st st' : LLAMAStreamer) (e : StreamerError)
    (h : read_packet d st = (.error e, st')) :
    st'.n_bytes_read = st.n_bytes_read ∧ st'.packet_id = st.packet_id ∧
    st'.event_rbkd = st.event_rbkd := by
  cases hst : st.in_stream with
  | none =>
    rw [read_packet_no_stream d st hst] at h
    have h2 := congrArg Prod.snd h
    simp only at h2
    rw [← h2]
    exact ⟨rfl, rfl, rfl⟩
  | some s =>
    rcases hq : read_bytes st.channel_configs s with ⟨res, s2⟩
    cases res with
    | error e2 =>
      rw [read_packet_of_error d st s s2 e2 hst hq] at h
      have h2 := congrArg Prod.snd h
      simp only at h2
      rw [← h2]
      exact ⟨rfl, rfl, rfl⟩
    | ok o =>
      cases o with
      | none =>
        rw [read_packet_of_eof d st s s2 hst hq] at h
        simp at h
      | some pf =>
        obtain ⟨packet, fch⟩ := pf
        rw [read_packet_of_ok d st s s2 packet fch hst hq] at h
        simp at h

/-- Witness for C10 on a truncated-packet failure. -/
theorem C10_witness :
    ((read_packet dFalse truncSt).2).n_bytes_read = truncSt.n_bytes_read ∧
    ((read_packet dFalse truncSt).2).packet_id = truncSt.packet_id ∧
    ((read_packet dFalse truncSt).2).event_rbkd = truncSt.event_rbkd :=
  counters_unchanged_on_error dFalse truncSt (read_packet dFalse truncSt).2
    (.TruncatedPacket 12 8) rfl

end Llama
